import Mathlib

/-
  Verification of the tenant-scoped course/enrollment subsystem
  (app/crud/courses.py and app/crud/student.py).

  The document store is modelled as association lists of (id, document)
  pairs; `find_one` is first-match lookup, `update_one` updates the first
  matching document, `insert_one` appends.  `datetime.utcnow()` is
  modelled by a clock function `Nat → Nat` applied to a per-state call
  counter, so consecutive reads may return different (or equal) values.
-/

/-- An element of a list-valued update field, as seen by
`clean_update_data`: either a dict (with an optional string under the
key `title`, read by `item.get('title', '')`), or a non-dict value. -/
inductive MItem where
  | obj (title : Option String)
  | nonObj
deriving DecidableEq, Repr

/-- A value of an update payload produced by
`CourseUpdate.dict(exclude_unset=True)`: `None`, a string, a list, or
any other (non-string, non-list) value, represented by an integer. -/
inductive Value where
  | vNull
  | vStr (s : String)
  | vList (items : List MItem)
  | vInt (n : Int)
deriving DecidableEq, Repr

/-- `item.get('title', '').strip().lower() == 'string'` guarded by
`isinstance(item, dict)`, from the list branch of `clean_update_data`. -/
def modulePlaceholder (it : MItem) : Bool :=
  match it with
  | .obj title => (title.getD "").trim.toLower == "string"
  | .nonObj => false

/-- The chain of `continue` conditions of the loop in
`CourseCRUD.clean_update_data`, in program order: `None` values, the
placeholder string `"string"`, empty strings other than `thumbnailUrl`,
all-placeholder lists, and empty lists other than `modules`. -/
def skipValue (key : String) (v : Value) : Bool :=
  match v with
  | .vNull => true
  | .vStr s =>
      (s.trim.toLower == "string") ||
      (s.trim == "" && key != "thumbnailUrl")
  | .vList items =>
      (items.length > 0 && items.all modulePlaceholder) ||
      (items.length == 0 && key != "modules")
  | .vInt _ => false

/-- `CourseCRUD.clean_update_data`: iterate over the payload in order,
skipping entries matched by one of the `continue` conditions and keeping
every other entry verbatim. -/
def clean_update_data : List (String × Value) → List (String × Value)
  | [] => []
  | (key, v) :: rest =>
      if skipValue key v then clean_update_data rest
      else (key, v) :: clean_update_data rest

/-- Modelled from the spec (claim C4 wording): a list element is a
module-like object whose title trims, case-insensitively, to the
placeholder text "string". -/
def specModulePlaceholder (it : MItem) : Bool :=
  match it with
  | .obj title => (title.getD "").trim.toLower == "string"
  | .nonObj => false

/-- Modelled from the spec (claim C4 wording): the per-field retention
rule of the Update Sanitizer — null omitted; a string trimming
case-insensitively to "string" omitted; a string trimming to empty
omitted unless the field is `thumbnailUrl`; a non-empty list of
all-placeholder module objects omitted; an empty list omitted unless the
field is `modules`; everything else retained. -/
def specKeep (key : String) (v : Value) : Bool :=
  match v with
  | .vNull => false
  | .vStr s =>
      if s.trim.toLower == "string" then false
      else if s.trim == "" then key == "thumbnailUrl"
      else true
  | .vList items =>
      if items.length > 0 && items.all specModulePlaceholder then false
      else if items.length == 0 then key == "modules"
      else true
  | .vInt _ => true

lemma specModulePlaceholder_eq_modulePlaceholder :
    specModulePlaceholder = modulePlaceholder := by
  funext it
  cases it <;> rfl

lemma skipValue_eq_not_specKeep (key : String) (v : Value) :
    skipValue key v = !(specKeep key v) := by
  cases v with
  | vNull => rfl
  | vStr s =>
      simp only [skipValue, specKeep]
      by_cases h1 : (s.trim.toLower == "string") = true <;>
        by_cases h2 : (s.trim == "") = true <;>
          simp [h1, h2, bne]
  | vList items =>
      simp only [skipValue, specKeep, specModulePlaceholder_eq_modulePlaceholder]
      by_cases h1 : (items.length > 0 && items.all modulePlaceholder) = true
      · simp [h1]
      · rw [Bool.not_eq_true] at h1
        by_cases h2 : (items.length == 0) = true
        · simp [h1, h2, bne]
        · rw [Bool.not_eq_true] at h2
          simp [h1, h2]
  | vInt n => rfl

lemma clean_update_data_eq_filter (m : List (String × Value)) :
    clean_update_data m = m.filter (fun kv => specKeep kv.1 kv.2) := by
  induction m with
  | nil => rfl
  | cons kv rest ih =>
      obtain ⟨key, v⟩ := kv
      by_cases h : skipValue key v
      · have hk : specKeep key v = false := by
          have := skipValue_eq_not_specKeep key v
          rw [h] at this
          simpa using this.symm
        simp [clean_update_data, h, List.filter_cons, hk, ih]
      · have hk : specKeep key v = true := by
          have := skipValue_eq_not_specKeep key v
          rw [eq_comm] at this
          cases hsk : specKeep key v
          · simp [hsk] at this
            exact absurd this h
          · rfl
        simp [clean_update_data, h, List.filter_cons, hk, ih]

/-- C4. For every input mapping, the Update Sanitizer keeps exactly the
fields that pass the per-field rules in order — null omitted; a string
trimming case-insensitively to "string" omitted; a string trimming to
empty omitted unless the field is `thumbnailUrl`; a non-empty list whose
elements are all placeholder module objects omitted; an empty list
omitted unless the field is `modules`; every other value retained
verbatim — and no key absent from the input appears in the output. -/
theorem clean_update_data_spec (m : List (String × Value)) :
    clean_update_data m = m.filter (fun kv => specKeep kv.1 kv.2) ∧
    (∀ kv ∈ clean_update_data m, kv ∈ m) := by
  refine ⟨clean_update_data_eq_filter m, ?_⟩
  intro kv hkv
  rw [clean_update_data_eq_filter] at hkv
  exact List.mem_of_mem_filter hkv

/-- C6. The Update Sanitizer is idempotent: sanitizing its own output
yields the same output (its output is a fixed point). -/
theorem clean_update_data_idem (m : List (String × Value)) :
    clean_update_data (clean_update_data m) = clean_update_data m := by
  rw [clean_update_data_eq_filter, clean_update_data_eq_filter,
    List.filter_filter]
  congr 1
  funext kv
  exact Bool.and_self _

/-- A course document, as stored by `CourseCRUD` (fields of
`CourseCreate` plus the timestamps and the enrollment counter the CRUD
layer adds).  Timestamps are clock readings (`Nat`). -/
structure Course where
  tenantId : String
  teacherId : String
  title : String
  description : Option String
  category : String
  status : String
  courseCode : Option String
  duration : Option String
  thumbnailUrl : Option String
  modules : List MItem
  enrolledStudents : Int
  createdAt : Nat
  updatedAt : Nat
deriving DecidableEq, Repr

/-- The `CourseCreate` payload.  The router sets `tenantId` before
calling `create_course`, so it is a plain string here.  The client may
send `enrolledStudents`, but `create_course` overwrites it with 0. -/
structure CourseCreate where
  title : String
  description : Option String
  category : String
  status : String
  courseCode : Option String
  duration : Option String
  thumbnailUrl : Option String
  modules : List MItem
  teacherId : String
  tenantId : String
  enrolledStudents : Int
deriving DecidableEq, Repr

/-- A student document as stored by `create_student` (crud/student.py):
tenant id, enrollment/completion sets, timestamps.  The payload fields
copied from `StudentCreate` play no role in the course subsystem and
are not modelled. -/
structure Student where
  tenantId : String
  enrolledCourses : List String
  completedCourses : List String
  createdAt : Nat
  updatedAt : Nat
deriving DecidableEq, Repr

/-- The two collections plus the `datetime.utcnow()` call counter.
Documents are (id, body) pairs in insertion order. -/
structure DBState where
  courses : List (String × Course)
  students : List (String × Student)
  tick : Nat
deriving DecidableEq, Repr

/-- `bson.ObjectId.is_valid` on a string: exactly 24 hexadecimal
characters. -/
def isValidObjectId (s : String) : Bool :=
  s.length == 24 &&
    s.data.all (fun ch =>
      ch.isDigit || ('a' ≤ ch && ch ≤ 'f') || ('A' ≤ ch && ch ≤ 'F'))

/-- `update_one`: apply `f` to the first element matched by `p`. -/
def updateFirst {α : Type} (p : α → Bool) (f : α → α) : List α → List α
  | [] => []
  | x :: xs => if p x then f x :: xs else x :: updateFirst p f xs

/-- `delete_one`: remove the first element matched by `p`. -/
def removeFirst {α : Type} (p : α → Bool) : List α → List α
  | [] => []
  | x :: xs => if p x then xs else x :: removeFirst p xs

/-- Mongo `$addToSet`: append `x` unless already present. -/
def addToSet (l : List String) (x : String) : List String :=
  if l.contains x then l else l ++ [x]

/-- The filter `{"_id": ObjectId(id), "tenantId": tenantId}` used on
the courses collection. -/
def coursePred (course_id tenantId : String) (kc : String × Course) : Bool :=
  kc.1 == course_id && kc.2.tenantId == tenantId

/-- The filter `{"_id": ObjectId(id), "tenantId": tenantId}` used on
the students collection. -/
def studentPred (student_id tenantId : String) (ks : String × Student) : Bool :=
  ks.1 == student_id && ks.2.tenantId == tenantId

/-- `CourseCRUD.create_course`: two `utcnow` reads for the timestamps,
enrollment counter forced to 0, `insert_one` (append; the store
generates the fresh id `newId`), and the stored record returned with
its id. -/
def create_course (clock : Nat → Nat) (st : DBState) (cd : CourseCreate)
    (newId : String) : (String × Course) × DBState :=
  let t1 := clock st.tick
  let t2 := clock (st.tick + 1)
  let c : Course := {
    tenantId := cd.tenantId
    teacherId := cd.teacherId
    title := cd.title
    description := cd.description
    category := cd.category
    status := cd.status
    courseCode := cd.courseCode
    duration := cd.duration
    thumbnailUrl := cd.thumbnailUrl
    modules := cd.modules
    enrolledStudents := 0
    createdAt := t1
    updatedAt := t2 }
  ((newId, c),
    { st with courses := st.courses ++ [(newId, c)], tick := st.tick + 2 })

/-- `CourseCRUD.get_course_by_id`: malformed-id check, then
tenant-scoped `find_one`. -/
def get_course_by_id (st : DBState) (course_id tenantId : String) :
    Option (String × Course) :=
  if isValidObjectId course_id then
    st.courses.find? (coursePred course_id tenantId)
  else none

/-- Python truthiness of an `Optional[str]` parameter (`if x:`): both
`None` and the empty string are falsy. -/
def truthy (o : Option String) : Bool := !(o.getD "" == "")

/-- Case-insensitive substring test on char lists (prefix at some
position), modelling `{"$regex": s, "$options": "i"}` for a plain
(metacharacter-free) search string. -/
def listIsPre : List Char → List Char → Bool
  | [], _ => true
  | _ :: _, [] => false
  | a :: as, b :: bs => a == b && listIsPre as bs

def listContainsSub (needle : List Char) : List Char → Bool
  | [] => needle.isEmpty
  | c :: rest => listIsPre needle (c :: rest) || listContainsSub needle rest

def strContainsCI (hay needle : String) : Bool :=
  listContainsSub needle.toLower.data hay.toLower.data

/-- `CourseCRUD.get_all_courses`: base query on the tenant, optional
teacher/status/category/search filters (each only when truthy), then
skip/limit pagination. -/
def get_all_courses (st : DBState) (tenantId : String)
    (teacher_id status category search : Option String)
    (skip limit : Nat) : List (String × Course) :=
  let query (kc : String × Course) : Bool :=
    kc.2.tenantId == tenantId
    && (!truthy teacher_id || kc.2.teacherId == teacher_id.getD "")
    && (!truthy status || kc.2.status == (status.getD "").trim)
    && (!truthy category || kc.2.category == (category.getD "").trim)
    && (!truthy search ||
         (let q := (search.getD "").trim
          strContainsCI kc.2.title q
          || (match kc.2.description with
              | some d => strContainsCI d q
              | none => false)
          || strContainsCI kc.2.category q))
  ((st.courses.filter query).drop skip).take limit

/-- Interpretation of `$set` for one sanitized `CourseUpdate` field.
`CourseUpdate` restricts the payload to exactly these keys and value
types, so no other combination reaches the store. -/
def applySet (c : Course) (kv : String × Value) : Course :=
  match kv.1, kv.2 with
  | "title", .vStr s => { c with title := s }
  | "description", .vStr s => { c with description := some s }
  | "category", .vStr s => { c with category := s }
  | "status", .vStr s => { c with status := s }
  | "courseCode", .vStr s => { c with courseCode := some s }
  | "duration", .vStr s => { c with duration := some s }
  | "thumbnailUrl", .vStr s => { c with thumbnailUrl := some s }
  | "modules", .vList l => { c with modules := l }
  | _, _ => c

def applySets (c : Course) (kvs : List (String × Value)) : Course :=
  kvs.foldl applySet c

/-- `CourseCRUD.update_course`: malformed-id check, sanitize the
payload, return the current record on an empty sanitized payload (no
write, no clock read), otherwise one `utcnow` read and a tenant-scoped
`find_one_and_update` with `$set` of the fields plus `updatedAt`,
returning the post-update document. -/
def update_course (clock : Nat → Nat) (st : DBState)
    (course_id tenantId : String) (course_update : List (String × Value)) :
    Option (String × Course) × DBState :=
  if isValidObjectId course_id then
    let cleaned := clean_update_data course_update
    if cleaned.isEmpty then (get_course_by_id st course_id tenantId, st)
    else
      let t := clock st.tick
      let upd := fun (e : String × Course) =>
        (e.1, { applySets e.2 cleaned with updatedAt := t })
      match st.courses.find? (coursePred course_id tenantId) with
      | none => (none, { st with tick := st.tick + 1 })
      | some kc =>
          (some (upd kc),
            { st with
              courses := updateFirst (coursePred course_id tenantId) upd st.courses
              tick := st.tick + 1 })
  else (none, st)

/-- `CourseCRUD.delete_course`: malformed-id check, then tenant-scoped
`delete_one`, reporting whether a document was deleted. -/
def delete_course (st : DBState) (course_id tenantId : String) :
    Bool × DBState :=
  if isValidObjectId course_id then
    (st.courses.any (coursePred course_id tenantId),
      { st with courses := removeFirst (coursePred course_id tenantId) st.courses })
  else (false, st)

/-- The `{"success": ..., "message": ...}` result of the enrollment
operations. -/
structure OpResult where
  success : Bool
  message : String
deriving DecidableEq, Repr

/-- `CourseCRUD.enroll_student`: validate both ids, tenant-scoped course
lookup (distinguishing a cross-tenant hit from full absence), the same
for the student, the already-enrolled guard, then `$addToSet` on the
student's `enrolledCourses` and `$inc` of the course counter by 1. -/
def enroll_student (st : DBState) (course_id student_id tenantId : String) :
    OpResult × DBState :=
  if !(isValidObjectId course_id) then
    (⟨false, "Invalid course ID format: " ++ course_id⟩, st)
  else if !(isValidObjectId student_id) then
    (⟨false, "Invalid student ID format: " ++ student_id⟩, st)
  else
    match st.courses.find? (coursePred course_id tenantId) with
    | none =>
        match st.courses.find? (fun kc => kc.1 == course_id) with
        | some _ => (⟨false, "Course found but belongs to different tenant"⟩, st)
        | none => (⟨false, "Course not found with ID: " ++ course_id⟩, st)
    | some _ =>
        match st.students.find? (studentPred student_id tenantId) with
        | none =>
            match st.students.find? (fun ks => ks.1 == student_id) with
            | some _ =>
                (⟨false, "Student found but belongs to different tenant"⟩, st)
            | none => (⟨false, "Student not found with ID: " ++ student_id⟩, st)
        | some ks =>
            if ks.2.enrolledCourses.contains course_id then
              (⟨false, "Student is already enrolled in this course"⟩, st)
            else
              let st1 := { st with
                students := updateFirst (studentPred student_id tenantId)
                  (fun e => (e.1,
                    { e.2 with enrolledCourses := addToSet e.2.enrolledCourses course_id }))
                  st.students }
              let st2 := { st1 with
                courses := updateFirst (coursePred course_id tenantId)
                  (fun e => (e.1,
                    { e.2 with enrolledStudents := e.2.enrolledStudents + 1 }))
                  st1.courses }
              (⟨true, "Successfully enrolled in course"⟩, st2)

/-- `CourseCRUD.unenroll_student`: validate both ids, tenant-scoped
course and student lookups (no cross-tenant diagnosis here), the
not-enrolled guard, then `$pull` of the course from the student's
`enrolledCourses` and `$inc` of the course counter by -1. -/
def unenroll_student (st : DBState) (course_id student_id tenantId : String) :
    OpResult × DBState :=
  if !(isValidObjectId course_id) then
    (⟨false, "Invalid course ID format: " ++ course_id⟩, st)
  else if !(isValidObjectId student_id) then
    (⟨false, "Invalid student ID format: " ++ student_id⟩, st)
  else
    match st.courses.find? (coursePred course_id tenantId) with
    | none => (⟨false, "Course not found with ID: " ++ course_id⟩, st)
    | some _ =>
        match st.students.find? (studentPred student_id tenantId) with
        | none => (⟨false, "Student not found with ID: " ++ student_id⟩, st)
        | some ks =>
            if !(ks.2.enrolledCourses.contains course_id) then
              (⟨false, "Student is not enrolled in this course"⟩, st)
            else
              let st1 := { st with
                students := updateFirst (studentPred student_id tenantId)
                  (fun e => (e.1,
                    { e.2 with enrolledCourses :=
                        e.2.enrolledCourses.filter (fun d => !(d == course_id)) }))
                  st.students }
              let st2 := { st1 with
                courses := updateFirst (coursePred course_id tenantId)
                  (fun e => (e.1,
                    { e.2 with enrolledStudents := e.2.enrolledStudents - 1 }))
                  st1.courses }
              (⟨true, "Successfully unenrolled from course"⟩, st2)

/-- `CourseCRUD.get_student_courses`: validate the student id,
tenant-scoped student lookup, drop syntactically invalid enrollment
entries, then fetch courses by `{"_id": {"$in": course_ids}}` with no
tenant condition, up to the `to_list(length=100)` bound. -/
def get_student_courses (st : DBState) (student_id tenantId : String) :
    List (String × Course) :=
  if isValidObjectId student_id then
    match st.students.find? (studentPred student_id tenantId) with
    | none => []
    | some ks =>
        let course_ids := ks.2.enrolledCourses.filter (fun cid => isValidObjectId cid)
        (st.courses.filter (fun kc => course_ids.contains kc.1)).take 100
  else []

/-- `create_student` (crud/student.py): inject the tenant id, empty
enrollment/completion sets and two `utcnow` timestamps, `insert_one`
(append; the store generates the fresh id `newId`), return the stored
record. -/
def create_student (clock : Nat → Nat) (st : DBState) (tenantId : String)
    (newId : String) : (String × Student) × DBState :=
  let t1 := clock st.tick
  let t2 := clock (st.tick + 1)
  let s : Student := {
    tenantId := tenantId
    enrolledCourses := []
    completedCourses := []
    createdAt := t1
    updatedAt := t2 }
  ((newId, s),
    { st with students := st.students ++ [(newId, s)], tick := st.tick + 2 })

/-- One sequential operation of the course/enrollment subsystem.  For
the two inserts, the id the store would generate is an explicit
parameter of the operation. -/
inductive Op where
  | createCourse (cd : CourseCreate) (newId : String)
  | createStudent (tenantId : String) (newId : String)
  | enroll (course_id student_id tenantId : String)
  | unenroll (course_id student_id tenantId : String)

/-- Execute one operation.  The store guarantees that a generated `_id`
is fresh (unique index on `_id`); an insert whose modelled id already
exists is therefore skipped, never executed with a duplicate id. -/
def step (clock : Nat → Nat) (st : DBState) : Op → DBState
  | .createCourse cd newId =>
      if st.courses.any (fun kc => kc.1 == newId) then st
      else (create_course clock st cd newId).2
  | .createStudent tid newId =>
      if st.students.any (fun ks => ks.1 == newId) then st
      else (create_student clock st tid newId).2
  | .enroll c s t => (enroll_student st c s t).2
  | .unenroll c s t => (unenroll_student st c s t).2

/-- A sequential run of operations. -/
def run (clock : Nat → Nat) (ops : List Op) (st : DBState) : DBState :=
  ops.foldl (step clock) st

/-- The empty store. -/
def initState : DBState := ⟨[], [], 0⟩

/-- Number of students whose enrollment set contains `cid`. -/
def enrolledCount (students : List (String × Student)) (cid : String) : Nat :=
  (students.filter (fun ks => ks.2.enrolledCourses.contains cid)).length

/-- Every course's counter agrees with the number of students enrolled
in it. -/
def countInv (st : DBState) : Prop :=
  ∀ kc ∈ st.courses, kc.2.enrolledStudents = (enrolledCount st.students kc.1 : Int)

/-- Structural well-formedness maintained by the store and the
operations: course ids are pairwise distinct, and every enrollment
entry refers to an existing course. -/
def storeWF (st : DBState) : Prop :=
  (st.courses.map Prod.fst).Nodup ∧
  ∀ ks ∈ st.students, ∀ cid ∈ ks.2.enrolledCourses, cid ∈ st.courses.map Prod.fst

lemma find?_updateFirst_split {α : Type} (p : α → Bool) (f : α → α)
    {l : List α} {x : α} (h : l.find? p = some x) :
    ∃ l1 l2, l = l1 ++ x :: l2 ∧ (∀ y ∈ l1, p y = false) ∧ p x = true ∧
      updateFirst p f l = l1 ++ f x :: l2 := by
  induction l with
  | nil => simp [List.find?] at h
  | cons a as ih =>
      by_cases hpa : p a
      · rw [List.find?_cons_of_pos _ hpa] at h
        obtain rfl : a = x := by simpa using h
        exact ⟨[], as, by simp, by simp, hpa, by simp [updateFirst, hpa]⟩
      · rw [List.find?_cons_of_neg _ hpa] at h
        obtain ⟨l1, l2, hl, hnone, hpx, hupd⟩ := ih h
        refine ⟨a :: l1, l2, by simp [hl], ?_, hpx, ?_⟩
        · intro y hy
          rcases List.mem_cons.mp hy with rfl | hy'
          · simpa using hpa
          · exact hnone y hy'
        · simp [updateFirst, hpa, hupd]

lemma find?_append_of_forall_neg {α : Type} {p : α → Bool}
    {l1 : List α} (l2 : List α) (h : ∀ y ∈ l1, p y = false) :
    (l1 ++ l2).find? p = l2.find? p := by
  induction l1 with
  | nil => rfl
  | cons a as ih =>
      have ha : ¬ p a := by simpa using h a (by simp)
      rw [List.cons_append, List.find?_cons_of_neg _ ha]
      exact ih (fun y hy => h y (by simp [hy]))

lemma enrolledCount_append (l1 l2 : List (String × Student)) (d : String) :
    enrolledCount (l1 ++ l2) d = enrolledCount l1 d + enrolledCount l2 d := by
  simp [enrolledCount, List.filter_append]

lemma enrolledCount_cons (x : String × Student)
    (l : List (String × Student)) (d : String) :
    enrolledCount (x :: l) d =
      (if d ∈ x.2.enrolledCourses then 1 else 0) + enrolledCount l d := by
  by_cases h : d ∈ x.2.enrolledCourses <;>
    simp [enrolledCount, List.filter_cons, h, Nat.add_comm]

lemma mem_addToSet_iff (l : List String) (x d : String) :
    d ∈ addToSet l x ↔ (d ∈ l ∨ d = x) := by
  unfold addToSet
  by_cases h : l.contains x
  · have hx : x ∈ l := by simpa using h
    rw [if_pos h]
    constructor
    · exact fun hd => Or.inl hd
    · rintro (hd | rfl)
      · exact hd
      · exact hx
  · rw [if_neg h]
    simp

lemma nodup_keys_split {α : Type} {l1 l2 : List (String × α)} {x : String × α}
    (h : (((l1 ++ x :: l2)).map Prod.fst).Nodup) :
    (∀ y ∈ l1, y.1 ≠ x.1) ∧ (∀ y ∈ l2, y.1 ≠ x.1) := by
  rw [List.map_append, List.map_cons, List.nodup_middle, List.nodup_cons] at h
  constructor
  · intro y hy hxy
    exact h.1 (by
      rw [← hxy]
      exact List.mem_append_left _ (List.mem_map_of_mem Prod.fst hy))
  · intro y hy hxy
    exact h.1 (by
      rw [← hxy]
      exact List.mem_append_right _ (List.mem_map_of_mem Prod.fst hy))

lemma key_unique {α : Type} {l : List (String × α)}
    (h : (l.map Prod.fst).Nodup) {k : String} {a b : α}
    (ha : (k, a) ∈ l) (hb : (k, b) ∈ l) : a = b := by
  induction l with
  | nil => simp at ha
  | cons x xs ih =>
      rw [List.map_cons, List.nodup_cons] at h
      rcases List.mem_cons.mp ha with rfl | ha'
      · rcases List.mem_cons.mp hb with hxb | hb'
        · exact congrArg Prod.snd hxb.symm
        · exact absurd (List.mem_map_of_mem Prod.fst hb') h.1
      · rcases List.mem_cons.mp hb with rfl | hb'
        · exact absurd (List.mem_map_of_mem Prod.fst ha') h.1
        · exact ih h.2 ha' hb'

/-- C2. A course created under tenant A is not returned by `getById`
under tenant B even with the correct identifier, and never appears in
`list` results for tenant B with any filter combination: both reads
filter by tenant identifier in addition to the primary key. -/
theorem tenant_isolation_reads
    (st : DBState) (cid tA tB : String) (c : Course)
    (hnd : (st.courses.map Prod.fst).Nodup)
    (hmem : (cid, c) ∈ st.courses)
    (hten : c.tenantId = tA) (hne : tA ≠ tB) :
    get_course_by_id st cid tB = none ∧
    ∀ teacher_id status category search skip limit,
      (cid, c) ∉ get_all_courses st tB teacher_id status category search skip limit := by
  constructor
  · unfold get_course_by_id
    by_cases hv : isValidObjectId cid
    · rw [if_pos hv, List.find?_eq_none]
      intro x hx hp
      have hp' : x.1 = cid ∧ x.2.tenantId = tB := by
        simpa [coursePred] using hp
      have hx2 : (cid, x.2) ∈ st.courses := by
        rw [← hp'.1]
        simpa using hx
      have hxc : x.2 = c := key_unique hnd hx2 hmem
      rw [hxc, hten] at hp'
      exact hne hp'.2
    · rw [if_neg hv]
  · intro teacher_id status category search skip limit hres
    simp only [get_all_courses] at hres
    have h1 := List.drop_subset _ _ (List.take_subset _ _ hres)
    have h2 := List.of_mem_filter h1
    simp only [Bool.and_eq_true] at h2
    have : c.tenantId = tB := by
      have := h2.1.1.1.1
      simpa using this
    rw [hten] at this
    exact hne this

def oidA : String := "aaaaaaaaaaaaaaaaaaaaaaaa"
def oidB : String := "bbbbbbbbbbbbbbbbbbbbbbbb"
def oidC : String := "cccccccccccccccccccccccc"

def sampleCourse (tenant : String) : Course := {
  tenantId := tenant
  teacherId := "T1"
  title := "Algebra"
  description := none
  category := "Math"
  status := "Active"
  courseCode := none
  duration := none
  thumbnailUrl := none
  modules := []
  enrolledStudents := 0
  createdAt := 0
  updatedAt := 0 }

def sampleStudent (tenant : String) (en : List String) : Student := {
  tenantId := tenant
  enrolledCourses := en
  completedCourses := []
  createdAt := 0
  updatedAt := 0 }

theorem tenant_isolation_reads_witness :
    get_course_by_id ⟨[(oidA, sampleCourse "A")], [], 0⟩ oidA "B" = none ∧
    (oidA, sampleCourse "A") ∉
      get_all_courses ⟨[(oidA, sampleCourse "A")], [], 0⟩ "B" none none none none 0 100 := by
  have h := tenant_isolation_reads ⟨[(oidA, sampleCourse "A")], [], 0⟩ oidA "A" "B"
    (sampleCourse "A") (by decide) (by decide) (by decide) (by decide)
  exact ⟨h.1, h.2 none none none none 0 100⟩

/-- C5. Updating a course that exists under the given tenant with a
payload that sanitizes to the empty mapping returns the stored record
unchanged: no write is issued, the clock is not read, and the state
(including the record's `updatedAt`) is exactly as before the call. -/
theorem update_course_noop_on_empty
    (clock : Nat → Nat) (st : DBState) (cid t : String)
    (u : List (String × Value)) (c : Course)
    (hv : isValidObjectId cid = true)
    (hclean : clean_update_data u = [])
    (hfound : st.courses.find? (coursePred cid t) = some (cid, c)) :
    update_course clock st cid t u = (some (cid, c), st) := by
  simp [update_course, hv, hclean, get_course_by_id, hfound]

theorem update_course_noop_on_empty_witness :
    update_course (fun i => i) ⟨[(oidA, sampleCourse "A")], [], 0⟩ oidA "A"
      [("title", Value.vNull), ("modules", Value.vNull)] =
      (some (oidA, sampleCourse "A"), ⟨[(oidA, sampleCourse "A")], [], 0⟩) :=
  update_course_noop_on_empty (fun i => i) ⟨[(oidA, sampleCourse "A")], [], 0⟩
    oidA "A" [("title", Value.vNull), ("modules", Value.vNull)]
    (sampleCourse "A") (by decide) (by decide) (by decide)

/-- C9. A syntactically invalid identifier is rejected before any store
access and the operation fails softly with the state untouched: getById
and update return not-found, delete returns false, and enroll/unenroll
return a failure result whose message names which identifier (course or
student) is malformed. -/
theorem malformed_id_soft_failure
    (clock : Nat → Nat) (st : DBState) (t : String) (u : List (String × Value))
    (cid sid : String) :
    (isValidObjectId cid = false →
      get_course_by_id st cid t = none ∧
      update_course clock st cid t u = (none, st) ∧
      delete_course st cid t = (false, st) ∧
      enroll_student st cid sid t =
        (⟨false, "Invalid course ID format: " ++ cid⟩, st) ∧
      unenroll_student st cid sid t =
        (⟨false, "Invalid course ID format: " ++ cid⟩, st)) ∧
    (isValidObjectId cid = true → isValidObjectId sid = false →
      enroll_student st cid sid t =
        (⟨false, "Invalid student ID format: " ++ sid⟩, st) ∧
      unenroll_student st cid sid t =
        (⟨false, "Invalid student ID format: " ++ sid⟩, st)) := by
  constructor
  · intro hvc
    refine ⟨?_, ?_, ?_, ?_, ?_⟩ <;>
      simp [get_course_by_id, update_course, delete_course, enroll_student,
        unenroll_student, hvc]
  · intro hvc hvs
    constructor <;> simp [enroll_student, unenroll_student, hvc, hvs]

theorem malformed_id_soft_failure_witness :
    (get_course_by_id initState "zz" "A" = none ∧
      enroll_student initState "zz" oidB "A" =
        (⟨false, "Invalid course ID format: " ++ "zz"⟩, initState)) ∧
    enroll_student initState oidA "yy" "A" =
      (⟨false, "Invalid student ID format: " ++ "yy"⟩, initState) := by
  refine ⟨⟨?_, ?_⟩, ?_⟩
  · exact ((malformed_id_soft_failure (fun i => i) initState "A" [] "zz" oidB).1
      (by decide)).1
  · exact ((malformed_id_soft_failure (fun i => i) initState "A" [] "zz" oidB).1
      (by decide)).2.2.2.1
  · exact ((malformed_id_soft_failure (fun i => i) initState "A" [] oidA "yy").2
      (by decide) (by decide)).1

/-- C10. `get_student_courses` applies the tenant filter only to the
student lookup; the course fetch is by identifier alone, so an
enrollment entry naming a course stored under a different tenant causes
that other tenant's course record to be included in the result. -/
theorem get_student_courses_cross_tenant
    (st : DBState) (sid tA tB cid : String) (s : Student) (c : Course)
    (hvs : isValidObjectId sid = true)
    (hstu : st.students.find? (studentPred sid tA) = some (sid, s))
    (hmemEn : cid ∈ s.enrolledCourses)
    (hvc : isValidObjectId cid = true)
    (hc : (cid, c) ∈ st.courses)
    (hten : c.tenantId = tB) (hne : tB ≠ tA)
    (hlen : (st.courses.filter (fun kc =>
        (s.enrolledCourses.filter (fun d => isValidObjectId d)).contains kc.1)).length
        ≤ 100) :
    (cid, c) ∈ get_student_courses st sid tA := by
  simp only [get_student_courses, hvs, if_true, hstu]
  rw [List.take_of_length_le hlen]
  refine List.mem_filter.mpr ⟨hc, ?_⟩
  simp [List.mem_filter, hmemEn, hvc]

theorem get_student_courses_cross_tenant_witness :
    (oidA, sampleCourse "B") ∈
      get_student_courses
        ⟨[(oidA, sampleCourse "B")], [(oidB, sampleStudent "A" [oidA])], 0⟩
        oidB "A" :=
  get_student_courses_cross_tenant
    ⟨[(oidA, sampleCourse "B")], [(oidB, sampleStudent "A" [oidA])], 0⟩
    oidB "A" "B" oidA (sampleStudent "A" [oidA]) (sampleCourse "B")
    (by decide) (by decide) (by decide) (by decide) (by decide)
    (by decide) (by decide) (by decide)

lemma course_msg_ne (cid : String) :
    "Course found but belongs to different tenant" ≠
      "Course not found with ID: " ++ cid := by
  intro h
  have h2 := congrArg (fun s => s.data.take 26) h
  simp only [String.data_append] at h2
  rw [List.take_left' (by decide)] at h2
  exact absurd h2 (by decide)

lemma student_msg_ne (sid : String) :
    "Student found but belongs to different tenant" ≠
      "Student not found with ID: " ++ sid := by
  intro h
  have h2 := congrArg (fun s => s.data.take 27) h
  simp only [String.data_append] at h2
  rw [List.take_left' (by decide)] at h2
  exact absurd h2 (by decide)

/-- C8. With syntactically valid identifiers, Enroll distinguishes a
course (resp. student) that exists under a different tenant from one
that does not exist at all: both are failures, with distinct message
texts. -/
theorem enroll_cross_tenant_messages
    (st1 st2 st3 st4 : DBState) (cid sid t : String)
    (c c3 c4 : Course) (s : Student)
    (hvc : isValidObjectId cid = true) (hvs : isValidObjectId sid = true)
    (h1a : st1.courses.find? (coursePred cid t) = none)
    (h1b : st1.courses.find? (fun kc => kc.1 == cid) = some (cid, c))
    (h2a : st2.courses.find? (fun kc => kc.1 == cid) = none)
    (h3a : st3.courses.find? (coursePred cid t) = some (cid, c3))
    (h3b : st3.students.find? (studentPred sid t) = none)
    (h3c : st3.students.find? (fun ks => ks.1 == sid) = some (sid, s))
    (h4a : st4.courses.find? (coursePred cid t) = some (cid, c4))
    (h4b : st4.students.find? (fun ks => ks.1 == sid) = none) :
    enroll_student st1 cid sid t =
      (⟨false, "Course found but belongs to different tenant"⟩, st1) ∧
    enroll_student st2 cid sid t =
      (⟨false, "Course not found with ID: " ++ cid⟩, st2) ∧
    enroll_student st3 cid sid t =
      (⟨false, "Student found but belongs to different tenant"⟩, st3) ∧
    enroll_student st4 cid sid t =
      (⟨false, "Student not found with ID: " ++ sid⟩, st4) ∧
    "Course found but belongs to different tenant" ≠
      "Course not found with ID: " ++ cid ∧
    "Student found but belongs to different tenant" ≠
      "Student not found with ID: " ++ sid := by
  have h2b : st2.courses.find? (coursePred cid t) = none := by
    rw [List.find?_eq_none] at h2a ⊢
    intro x hx hp
    exact h2a x hx (by
      have hp' : x.1 = cid ∧ x.2.tenantId = t := by simpa [coursePred] using hp
      simpa using hp'.1)
  have h4c : st4.students.find? (studentPred sid t) = none := by
    rw [List.find?_eq_none] at h4b ⊢
    intro x hx hp
    exact h4b x hx (by
      have hp' : x.1 = sid ∧ x.2.tenantId = t := by simpa [studentPred] using hp
      simpa using hp'.1)
  refine ⟨?_, ?_, ?_, ?_, course_msg_ne cid, student_msg_ne sid⟩
  · simp [enroll_student, hvc, hvs, h1a, h1b]
  · simp [enroll_student, hvc, hvs, h2b, h2a]
  · simp [enroll_student, hvc, hvs, h3a, h3b, h3c]
  · simp [enroll_student, hvc, hvs, h4a, h4c, h4b]

theorem enroll_cross_tenant_messages_witness :
    enroll_student ⟨[(oidA, sampleCourse "B")], [], 0⟩ oidA oidB "A" =
      (⟨false, "Course found but belongs to different tenant"⟩,
        ⟨[(oidA, sampleCourse "B")], [], 0⟩) ∧
    enroll_student initState oidA oidB "A" =
      (⟨false, "Course not found with ID: " ++ oidA⟩, initState) ∧
    enroll_student
        ⟨[(oidA, sampleCourse "A")], [(oidB, sampleStudent "B" [])], 0⟩
        oidA oidB "A" =
      (⟨false, "Student found but belongs to different tenant"⟩,
        ⟨[(oidA, sampleCourse "A")], [(oidB, sampleStudent "B" [])], 0⟩) ∧
    enroll_student ⟨[(oidA, sampleCourse "A")], [], 0⟩ oidA oidB "A" =
      (⟨false, "Student not found with ID: " ++ oidB⟩,
        ⟨[(oidA, sampleCourse "A")], [], 0⟩) ∧
    "Course found but belongs to different tenant" ≠
      "Course not found with ID: " ++ oidA ∧
    "Student found but belongs to different tenant" ≠
      "Student not found with ID: " ++ oidB :=
  enroll_cross_tenant_messages
    ⟨[(oidA, sampleCourse "B")], [], 0⟩ initState
    ⟨[(oidA, sampleCourse "A")], [(oidB, sampleStudent "B" [])], 0⟩
    ⟨[(oidA, sampleCourse "A")], [], 0⟩ oidA oidB "A"
    (sampleCourse "B") (sampleCourse "A") (sampleCourse "A")
    (sampleStudent "B" [])
    (by decide) (by decide) (by decide) (by decide) (by decide)
    (by decide) (by decide) (by decide) (by decide) (by decide)

/-- C3. Enrolling the same student in the same course twice: the first
call succeeds and brings the course's counter from 0 to 1; the second
call fails with "already enrolled" and changes nothing.  Symmetrically,
unenrolling a student who is not enrolled fails with "not enrolled" and
changes nothing: business-rule failures return before any write. -/
theorem enroll_twice_unenroll_guard
    (st : DBState) (cid sid t : String) (c : Course) (s : Student)
    (hvc : isValidObjectId cid = true) (hvs : isValidObjectId sid = true)
    (hc : st.courses.find? (coursePred cid t) = some (cid, c))
    (hcount : c.enrolledStudents = 0)
    (hs : st.students.find? (studentPred sid t) = some (sid, s))
    (hnot : s.enrolledCourses.contains cid = false) :
    (enroll_student st cid sid t).1.success = true ∧
    ((enroll_student st cid sid t).2.courses.find? (coursePred cid t)).map
        (fun kc => kc.2.enrolledStudents) = some 1 ∧
    (enroll_student ((enroll_student st cid sid t).2) cid sid t).1.success = false ∧
    (enroll_student ((enroll_student st cid sid t).2) cid sid t).1.message =
        "Student is already enrolled in this course" ∧
    (enroll_student ((enroll_student st cid sid t).2) cid sid t).2 =
        (enroll_student st cid sid t).2 ∧
    (unenroll_student st cid sid t).1.success = false ∧
    (unenroll_student st cid sid t).1.message =
        "Student is not enrolled in this course" ∧
    (unenroll_student st cid sid t).2 = st := by
  have hnotmem : cid ∉ s.enrolledCourses := by simpa using hnot
  have hst2 : (enroll_student st cid sid t).2 =
      ⟨updateFirst (coursePred cid t)
          (fun e => (e.1, { e.2 with enrolledStudents := e.2.enrolledStudents + 1 }))
          st.courses,
        updateFirst (studentPred sid t)
          (fun e => (e.1, { e.2 with enrolledCourses := addToSet e.2.enrolledCourses cid }))
          st.students,
        st.tick⟩ := by
    simp [enroll_student, hvc, hvs, hc, hs, hnotmem]
  obtain ⟨l1, l2, hcl, hl1, hpc, hcupd⟩ :=
    find?_updateFirst_split (coursePred cid t)
      (fun e => (e.1, { e.2 with enrolledStudents := e.2.enrolledStudents + 1 })) hc
  obtain ⟨m1, m2, hsl, hm1, hps, hsupd⟩ :=
    find?_updateFirst_split (studentPred sid t)
      (fun e => (e.1, { e.2 with enrolledCourses := addToSet e.2.enrolledCourses cid }))
      hs
  have hfind2C : (updateFirst (coursePred cid t)
      (fun e => (e.1, { e.2 with enrolledStudents := e.2.enrolledStudents + 1 }))
      st.courses).find? (coursePred cid t) =
      some (cid, { c with enrolledStudents := c.enrolledStudents + 1 }) := by
    rw [hcupd, find?_append_of_forall_neg _ hl1]
    have htc : c.tenantId = t := by
      have := hpc
      simp [coursePred] at this
      exact this
    exact List.find?_cons_of_pos _ (by simp [coursePred, htc])
  have hfind2S : (updateFirst (studentPred sid t)
      (fun e => (e.1, { e.2 with enrolledCourses := addToSet e.2.enrolledCourses cid }))
      st.students).find? (studentPred sid t) =
      some (sid, { s with enrolledCourses := addToSet s.enrolledCourses cid }) := by
    rw [hsupd, find?_append_of_forall_neg _ hm1]
    have hts : s.tenantId = t := by
      have := hps
      simp [studentPred] at this
      exact this
    exact List.find?_cons_of_pos _ (by simp [studentPred, hts])
  have hcontains : cid ∈ addToSet s.enrolledCourses cid := by
    simp [addToSet, hnotmem]
  have hsecond : enroll_student ((enroll_student st cid sid t).2) cid sid t =
      (⟨false, "Student is already enrolled in this course"⟩,
        (enroll_student st cid sid t).2) := by
    rw [hst2]
    simp [enroll_student, hvc, hvs, hfind2C, hfind2S, hcontains]
  refine ⟨?_, ?_, ?_, ?_, ?_, ?_, ?_, ?_⟩
  · simp [enroll_student, hvc, hvs, hc, hs, hnotmem]
  · rw [hst2]
    simp [hfind2C, hcount]
  · rw [hsecond]
  · rw [hsecond]
  · rw [hsecond]
  · simp [unenroll_student, hvc, hvs, hc, hs, hnotmem]
  · simp [unenroll_student, hvc, hvs, hc, hs, hnotmem]
  · simp [unenroll_student, hvc, hvs, hc, hs, hnotmem]

theorem enroll_twice_unenroll_guard_witness :
    (enroll_student ⟨[(oidA, sampleCourse "A")],
        [(oidB, sampleStudent "A" [])], 0⟩ oidA oidB "A").1.success = true ∧
    ((enroll_student ⟨[(oidA, sampleCourse "A")],
        [(oidB, sampleStudent "A" [])], 0⟩ oidA oidB "A").2.courses.find?
        (coursePred oidA "A")).map (fun kc => kc.2.enrolledStudents) = some 1 := by
  have h := enroll_twice_unenroll_guard
    ⟨[(oidA, sampleCourse "A")], [(oidB, sampleStudent "A" [])], 0⟩
    oidA oidB "A" (sampleCourse "A") (sampleStudent "A" [])
    (by decide) (by decide) (by decide) (by decide) (by decide) (by decide)
  exact ⟨h.1, h.2.1⟩

def sampleCreateData : CourseCreate := {
  title := "Algebra"
  description := none
  category := "Math"
  status := "Active"
  courseCode := none
  duration := none
  thumbnailUrl := none
  modules := []
  teacherId := "T1"
  tenantId := "A"
  enrolledStudents := 7 }

/-- C7, counterexample. `create_course` reads the clock once for
`createdAt` and again for `updatedAt`; with a clock that advances
between consecutive reads the two timestamps of the created record are
not equal, refuting "equal at creation". -/
theorem create_course_timestamps_differ :
    (create_course (fun i => i) initState sampleCreateData oidA).1.2.createdAt ≠
      (create_course (fun i => i) initState sampleCreateData oidA).1.2.updatedAt := by
  decide

/-- C7, amended. `create_course` assigns the creation timestamp from one
clock read and the update timestamp from the immediately following read
(so for a monotone clock `createdAt ≤ updatedAt`, with equality only
when the two reads coincide), initializes the enrolled-student count to
0 (overriding any client-sent value), persists the record, leaves the
student collection untouched, and returns the stored record (all payload
fields verbatim) together with its generated identifier. -/
theorem create_course_spec_amended
    (clock : Nat → Nat) (st : DBState) (cd : CourseCreate) (newId : String)
    (hmono : ∀ i j, i ≤ j → clock i ≤ clock j) :
    (create_course clock st cd newId).1.1 = newId ∧
    (create_course clock st cd newId).1.2.createdAt ≤
      (create_course clock st cd newId).1.2.updatedAt ∧
    (create_course clock st cd newId).1.2.enrolledStudents = 0 ∧
    (create_course clock st cd newId).2.courses =
      st.courses ++ [(newId, (create_course clock st cd newId).1.2)] ∧
    (create_course clock st cd newId).2.students = st.students ∧
    (create_course clock st cd newId).1.2.title = cd.title ∧
    (create_course clock st cd newId).1.2.description = cd.description ∧
    (create_course clock st cd newId).1.2.category = cd.category ∧
    (create_course clock st cd newId).1.2.status = cd.status ∧
    (create_course clock st cd newId).1.2.courseCode = cd.courseCode ∧
    (create_course clock st cd newId).1.2.duration = cd.duration ∧
    (create_course clock st cd newId).1.2.thumbnailUrl = cd.thumbnailUrl ∧
    (create_course clock st cd newId).1.2.modules = cd.modules ∧
    (create_course clock st cd newId).1.2.teacherId = cd.teacherId ∧
    (create_course clock st cd newId).1.2.tenantId = cd.tenantId :=
  ⟨rfl, hmono _ _ (Nat.le_succ _), rfl, rfl, rfl, rfl, rfl, rfl, rfl, rfl,
    rfl, rfl, rfl, rfl, rfl⟩

theorem create_course_spec_amended_witness :
    (create_course (fun i => i) initState sampleCreateData oidA).1.1 = oidA ∧
    (create_course (fun i => i) initState sampleCreateData oidA).1.2.createdAt ≤
      (create_course (fun i => i) initState sampleCreateData oidA).1.2.updatedAt ∧
    (create_course (fun i => i) initState sampleCreateData oidA).1.2.enrolledStudents
      = 0 := by
  have h := create_course_spec_amended (fun i => i) initState sampleCreateData oidA
    (fun i j hij => hij)
  exact ⟨h.1, h.2.1, h.2.2.1⟩

lemma enroll_preserves (st : DBState) (cid sid t : String)
    (hwf : storeWF st) (hinv : countInv st) :
    storeWF (enroll_student st cid sid t).2 ∧
      countInv (enroll_student st cid sid t).2 := by
  have triv : ∀ x : DBState, x = st → storeWF x ∧ countInv x :=
    fun x hx => hx ▸ ⟨hwf, hinv⟩
  cases hvc : isValidObjectId cid with
  | false => exact triv _ (by simp [enroll_student, hvc])
  | true =>
  cases hvs : isValidObjectId sid with
  | false => exact triv _ (by simp [enroll_student, hvc, hvs])
  | true =>
  cases hfc : st.courses.find? (coursePred cid t) with
  | none =>
      cases hfc2 : st.courses.find? (fun kc => kc.1 == cid) with
      | none => exact triv _ (by simp [enroll_student, hvc, hvs, hfc, hfc2])
      | some w => exact triv _ (by simp [enroll_student, hvc, hvs, hfc, hfc2])
  | some kc0 =>
  cases hfs : st.students.find? (studentPred sid t) with
  | none =>
      cases hfs2 : st.students.find? (fun ks => ks.1 == sid) with
      | none => exact triv _ (by simp [enroll_student, hvc, hvs, hfc, hfs, hfs2])
      | some w => exact triv _ (by simp [enroll_student, hvc, hvs, hfc, hfs, hfs2])
  | some ks0 =>
  by_cases hmem : cid ∈ ks0.2.enrolledCourses
  · exact triv _ (by simp [enroll_student, hvc, hvs, hfc, hfs, hmem])
  · have hE : (enroll_student st cid sid t).2 =
        ⟨updateFirst (coursePred cid t)
            (fun e => (e.1, { e.2 with enrolledStudents := e.2.enrolledStudents + 1 }))
            st.courses,
          updateFirst (studentPred sid t)
            (fun e => (e.1, { e.2 with enrolledCourses := addToSet e.2.enrolledCourses cid }))
            st.students,
          st.tick⟩ := by
      simp [enroll_student, hvc, hvs, hfc, hfs, hmem]
    rw [hE]
    have hkc0 : kc0.1 = cid ∧ kc0.2.tenantId = t := by
      have := List.find?_some hfc
      simpa [coursePred] using this
    obtain ⟨l1, l2, hcl, hl1, hpc, hcupd⟩ :=
      find?_updateFirst_split (coursePred cid t)
        (fun e => (e.1, { e.2 with enrolledStudents := e.2.enrolledStudents + 1 })) hfc
    obtain ⟨m1, m2, hsl, hm1, hps, hsupd⟩ :=
      find?_updateFirst_split (studentPred sid t)
        (fun e => (e.1, { e.2 with enrolledCourses := addToSet e.2.enrolledCourses cid })) hfs
    rw [hcupd, hsupd]
    have factA : ∀ d,
        enrolledCount (m1 ++ (ks0.1,
            { ks0.2 with enrolledCourses := addToSet ks0.2.enrolledCourses cid }) :: m2) d =
          enrolledCount st.students d + (if d = cid then 1 else 0) := by
      intro d
      rw [hsl]
      simp only [enrolledCount_append, enrolledCount_cons]
      by_cases hd : d = cid
      · subst hd
        have h1 : d ∈ addToSet ks0.2.enrolledCourses d :=
          (mem_addToSet_iff _ _ _).mpr (Or.inr rfl)
        simp only [h1, if_true, if_pos rfl, hmem, if_false]
        omega
      · have h2 : (d ∈ addToSet ks0.2.enrolledCourses cid) ↔ d ∈ ks0.2.enrolledCourses := by
          rw [mem_addToSet_iff]
          simp [hd]
        simp only [h2, if_neg hd]
        omega
    have hkeys : ((l1 ++ (kc0.1,
        { kc0.2 with enrolledStudents := kc0.2.enrolledStudents + 1 }) :: l2).map
          Prod.fst) = st.courses.map Prod.fst := by
      rw [hcl]
      simp
    have hsplitkeys := nodup_keys_split
      (show ((l1 ++ kc0 :: l2).map Prod.fst).Nodup by rw [← hcl]; exact hwf.1)
    constructor
    · constructor
      · show ((l1 ++ _ :: l2).map Prod.fst).Nodup
        rw [hkeys]
        exact hwf.1
      · intro ks hks d hd
        show d ∈ (l1 ++ _ :: l2).map Prod.fst
        rw [hkeys]
        rcases List.mem_append.mp hks with hks1 | hks2
        · exact hwf.2 ks (by rw [hsl]; exact List.mem_append_left _ hks1) d hd
        · rcases List.mem_cons.mp hks2 with heq | hks3
          · subst heq
            rcases (mem_addToSet_iff _ _ _).mp hd with hdin | rfl
            · exact hwf.2 ks0
                (by rw [hsl]; exact List.mem_append_right _ (List.mem_cons_self _ _))
                d hdin
            · have hmemc : kc0 ∈ st.courses := List.mem_of_find?_eq_some hfc
              rw [← hkc0.1]
              exact List.mem_map_of_mem Prod.fst hmemc
          · exact hwf.2 ks
              (by rw [hsl]; exact List.mem_append_right _ (List.mem_cons_of_mem _ hks3))
              d hd
    · intro kc hkc
      show kc.2.enrolledStudents = (enrolledCount _ kc.1 : Int)
      rw [factA kc.1]
      rcases List.mem_append.mp hkc with h1 | h2
      · have hne : kc.1 ≠ cid := by
          have := hsplitkeys.1 kc h1
          rwa [hkc0.1] at this
        rw [if_neg hne, Nat.add_zero]
        exact hinv kc (by rw [hcl]; exact List.mem_append_left _ h1)
      · rcases List.mem_cons.mp h2 with heq | h3
        · have hold := hinv kc0 (List.mem_of_find?_eq_some hfc)
          rw [hkc0.1] at hold
          subst heq
          simp only [hkc0.1, if_pos rfl]
          push_cast
          omega
        · have hne : kc.1 ≠ cid := by
            have := hsplitkeys.2 kc h3
            rwa [hkc0.1] at this
          rw [if_neg hne, Nat.add_zero]
          exact hinv kc (by rw [hcl]; exact List.mem_append_right _ (List.mem_cons_of_mem _ h3))

lemma unenroll_preserves (st : DBState) (cid sid t : String)
    (hwf : storeWF st) (hinv : countInv st) :
    storeWF (unenroll_student st cid sid t).2 ∧
      countInv (unenroll_student st cid sid t).2 := by
  have triv : ∀ x : DBState, x = st → storeWF x ∧ countInv x :=
    fun x hx => hx ▸ ⟨hwf, hinv⟩
  cases hvc : isValidObjectId cid with
  | false => exact triv _ (by simp [unenroll_student, hvc])
  | true =>
  cases hvs : isValidObjectId sid with
  | false => exact triv _ (by simp [unenroll_student, hvc, hvs])
  | true =>
  cases hfc : st.courses.find? (coursePred cid t) with
  | none => exact triv _ (by simp [unenroll_student, hvc, hvs, hfc])
  | some kc0 =>
  cases hfs : st.students.find? (studentPred sid t) with
  | none => exact triv _ (by simp [unenroll_student, hvc, hvs, hfc, hfs])
  | some ks0 =>
  by_cases hmem : cid ∈ ks0.2.enrolledCourses
  case neg => exact triv _ (by simp [unenroll_student, hvc, hvs, hfc, hfs, hmem])
  case pos =>
    have hE : (unenroll_student st cid sid t).2 =
        ⟨updateFirst (coursePred cid t)
            (fun e => (e.1, { e.2 with enrolledStudents := e.2.enrolledStudents - 1 }))
            st.courses,
          updateFirst (studentPred sid t)
            (fun e => (e.1, { e.2 with enrolledCourses :=
                e.2.enrolledCourses.filter (fun d => !(d == cid)) }))
            st.students,
          st.tick⟩ := by
      simp [unenroll_student, hvc, hvs, hfc, hfs, hmem]
    rw [hE]
    have hkc0 : kc0.1 = cid ∧ kc0.2.tenantId = t := by
      have := List.find?_some hfc
      simpa [coursePred] using this
    obtain ⟨l1, l2, hcl, hl1, hpc, hcupd⟩ :=
      find?_updateFirst_split (coursePred cid t)
        (fun e => (e.1, { e.2 with enrolledStudents := e.2.enrolledStudents - 1 })) hfc
    obtain ⟨m1, m2, hsl, hm1, hps, hsupd⟩ :=
      find?_updateFirst_split (studentPred sid t)
        (fun e => (e.1, { e.2 with enrolledCourses :=
            e.2.enrolledCourses.filter (fun d => !(d == cid)) })) hfs
    rw [hcupd, hsupd]
    have factA : ∀ d,
        enrolledCount st.students d =
          enrolledCount (m1 ++ (ks0.1,
              { ks0.2 with enrolledCourses :=
                  ks0.2.enrolledCourses.filter (fun e => !(e == cid)) }) :: m2) d +
            (if d = cid then 1 else 0) := by
      intro d
      rw [hsl]
      simp only [enrolledCount_append, enrolledCount_cons]
      by_cases hd : d = cid
      · have h1 : d ∉ ks0.2.enrolledCourses.filter (fun e => !(e == cid)) := by
          simp [List.mem_filter, hd]
        have h2 : d ∈ ks0.2.enrolledCourses := hd ▸ hmem
        simp only [if_neg h1, if_pos hd, if_pos h2]
        omega
      · have h2 : (d ∈ ks0.2.enrolledCourses.filter (fun e => !(e == cid))) ↔
            d ∈ ks0.2.enrolledCourses := by
          simp [List.mem_filter, hd]
        simp only [h2, if_neg hd]
        omega
    have hkeys : ((l1 ++ (kc0.1,
        { kc0.2 with enrolledStudents := kc0.2.enrolledStudents - 1 }) :: l2).map
          Prod.fst) = st.courses.map Prod.fst := by
      rw [hcl]
      simp
    have hsplitkeys := nodup_keys_split
      (show ((l1 ++ kc0 :: l2).map Prod.fst).Nodup by rw [← hcl]; exact hwf.1)
    constructor
    · constructor
      · show ((l1 ++ _ :: l2).map Prod.fst).Nodup
        rw [hkeys]
        exact hwf.1
      · intro ks hks d hd
        show d ∈ (l1 ++ _ :: l2).map Prod.fst
        rw [hkeys]
        rcases List.mem_append.mp hks with hks1 | hks2
        · exact hwf.2 ks (by rw [hsl]; exact List.mem_append_left _ hks1) d hd
        · rcases List.mem_cons.mp hks2 with heq | hks3
          · subst heq
            have hdin : d ∈ ks0.2.enrolledCourses := List.mem_of_mem_filter hd
            exact hwf.2 ks0
              (by rw [hsl]; exact List.mem_append_right _ (List.mem_cons_self _ _))
              d hdin
          · exact hwf.2 ks
              (by rw [hsl]; exact List.mem_append_right _ (List.mem_cons_of_mem _ hks3))
              d hd
    · intro kc hkc
      show kc.2.enrolledStudents = (enrolledCount _ kc.1 : Int)
      rcases List.mem_append.mp hkc with h1 | h2
      · have hne : kc.1 ≠ cid := by
          have := hsplitkeys.1 kc h1
          rwa [hkc0.1] at this
        have hfa := factA kc.1
        rw [if_neg hne, Nat.add_zero] at hfa
        rw [← hfa]
        exact hinv kc (by rw [hcl]; exact List.mem_append_left _ h1)
      · rcases List.mem_cons.mp h2 with heq | h3
        · have hold := hinv kc0 (List.mem_of_find?_eq_some hfc)
          rw [hkc0.1] at hold
          have hfa := factA cid
          rw [if_pos rfl] at hfa
          subst heq
          simp only [hkc0.1]
          rw [hold, hfa]
          push_cast
          ring
        · have hne : kc.1 ≠ cid := by
            have := hsplitkeys.2 kc h3
            rwa [hkc0.1] at this
          have hfa := factA kc.1
          rw [if_neg hne, Nat.add_zero] at hfa
          rw [← hfa]
          exact hinv kc
            (by rw [hcl]; exact List.mem_append_right _ (List.mem_cons_of_mem _ h3))

lemma step_preserves (clock : Nat → Nat) (st : DBState) (op : Op)
    (hwf : storeWF st) (hinv : countInv st) :
    storeWF (step clock st op) ∧ countInv (step clock st op) := by
  cases op with
  | enroll c s t => exact enroll_preserves st c s t hwf hinv
  | unenroll c s t => exact unenroll_preserves st c s t hwf hinv
  | createCourse cd newId =>
      by_cases hAny : st.courses.any (fun kc => kc.1 == newId) = true
      · simpa [step, hAny] using And.intro hwf hinv
      · have hfresh : ∀ kc ∈ st.courses, kc.1 ≠ newId := by
          intro kc hkc h
          exact hAny (List.any_eq_true.mpr ⟨kc, hkc, by simp [h]⟩)
        simp only [step, if_neg hAny]
        have hCC : (create_course clock st cd newId).2.courses =
            st.courses ++ [(newId, (create_course clock st cd newId).1.2)] := rfl
        have hCS : (create_course clock st cd newId).2.students = st.students := rfl
        have hC0 : (create_course clock st cd newId).1.2.enrolledStudents = 0 := rfl
        constructor
        · constructor
          · rw [hCC, List.map_append, List.nodup_append]
            refine ⟨hwf.1, by simp, ?_⟩
            intro a ha hb
            have hb' : a = newId := by simpa using hb
            subst hb'
            obtain ⟨kc, hkc, hfst⟩ := List.mem_map.mp ha
            exact hfresh kc hkc hfst
          · intro ks hks d hd
            rw [hCS] at hks
            rw [hCC, List.map_append]
            exact List.mem_append_left _ (hwf.2 ks hks d hd)
        · intro kc hkc
          rw [hCC] at hkc
          rw [hCS]
          rcases List.mem_append.mp hkc with h1 | h2
          · exact hinv kc h1
          · have heq : kc = (newId, (create_course clock st cd newId).1.2) := by
              simpa using h2
            subst heq
            have hcnt : enrolledCount st.students newId = 0 := by
              unfold enrolledCount
              rw [List.length_eq_zero, List.filter_eq_nil_iff]
              intro ks hks hcont
              have hd : newId ∈ ks.2.enrolledCourses := by simpa using hcont
              obtain ⟨kc', hkc', hfst⟩ := List.mem_map.mp (hwf.2 ks hks newId hd)
              exact hfresh kc' hkc' hfst
            show (create_course clock st cd newId).1.2.enrolledStudents = _
            rw [hC0, hcnt]
            rfl
  | createStudent tid newId =>
      by_cases hAny : st.students.any (fun ks => ks.1 == newId) = true
      · simpa [step, hAny] using And.intro hwf hinv
      · simp only [step, if_neg hAny]
        have hSC : (create_student clock st tid newId).2.courses = st.courses := rfl
        have hSS : (create_student clock st tid newId).2.students =
            st.students ++ [(newId, (create_student clock st tid newId).1.2)] := rfl
        have hS0 : (create_student clock st tid newId).1.2.enrolledCourses = [] := rfl
        constructor
        · constructor
          · rw [hSC]
            exact hwf.1
          · intro ks hks d hd
            rw [hSS] at hks
            rw [hSC]
            rcases List.mem_append.mp hks with h1 | h2
            · exact hwf.2 ks h1 d hd
            · have heq : ks = (newId, (create_student clock st tid newId).1.2) := by
                simpa using h2
              rw [heq, hS0] at hd
              simp at hd
        · intro kc hkc
          rw [hSC] at hkc
          rw [hSS]
          rw [enrolledCount_append]
          have hz : enrolledCount [(newId, (create_student clock st tid newId).1.2)] kc.1
              = 0 := by
            rw [enrolledCount_cons]
            show (if kc.1 ∈ (create_student clock st tid newId).1.2.enrolledCourses
              then 1 else 0) + enrolledCount [] kc.1 = 0
            rw [hS0]
            simp [enrolledCount]
          rw [hz, Nat.add_zero]
          exact hinv kc hkc

lemma run_preserves (clock : Nat → Nat) (ops : List Op) :
    ∀ st, storeWF st ∧ countInv st →
      storeWF (run clock ops st) ∧ countInv (run clock ops st) := by
  induction ops with
  | nil => exact fun st h => h
  | cons op ops ih =>
      intro st h
      exact ih _ (step_preserves clock st op h.1 h.2)

/-- C1. In every state reachable by a sequential run of the operations
(create_course, create_student, enroll_student, unenroll_student) from
the empty store, each course's `enrolledStudents` counter equals the
number of students whose `enrolledCourses` set contains that course's
identifier, and in particular the counter is never negative: enroll
increments by exactly 1 only after adding the course to a student set
that did not contain it, and unenroll decrements by exactly 1 only
after removing it from a set that did contain it. -/
theorem enrollment_count_invariant (clock : Nat → Nat) (ops : List Op) :
    ∀ kc ∈ (run clock ops initState).courses,
      kc.2.enrolledStudents =
        (enrolledCount (run clock ops initState).students kc.1 : Int) ∧
      0 ≤ kc.2.enrolledStudents := by
  have hinit : storeWF initState ∧ countInv initState := by
    refine ⟨⟨?_, ?_⟩, ?_⟩
    · simp [initState]
    · intro ks hks
      simp [initState] at hks
    · intro kc hkc
      simp [initState] at hkc
  have h := run_preserves clock ops initState hinit
  intro kc hkc
  refine ⟨h.2 kc hkc, ?_⟩
  rw [h.2 kc hkc]
  exact Int.natCast_nonneg _

def opsW : List Op :=
  [Op.createCourse sampleCreateData oidA,
   Op.createStudent "A" oidB,
   Op.enroll oidA oidB "A"]

def courseW : Course := {
  tenantId := "A"
  teacherId := "T1"
  title := "Algebra"
  description := none
  category := "Math"
  status := "Active"
  courseCode := none
  duration := none
  thumbnailUrl := none
  modules := []
  enrolledStudents := 1
  createdAt := 0
  updatedAt := 1 }

theorem enrollment_count_invariant_witness :
    (oidA, courseW) ∈ (run (fun i => i) opsW initState).courses ∧
    courseW.enrolledStudents =
      (enrolledCount (run (fun i => i) opsW initState).students oidA : Int) ∧
    0 ≤ courseW.enrolledStudents := by
  have hmem : (oidA, courseW) ∈ (run (fun i => i) opsW initState).courses := by
    decide
  exact ⟨hmem, enrollment_count_invariant (fun i => i) opsW (oidA, courseW) hmem⟩

theorem clean_update_data_spec_witness :
    clean_update_data [("title", Value.vNull), ("modules", Value.vList [])] =
      List.filter (fun kv => specKeep kv.1 kv.2)
        [("title", Value.vNull), ("modules", Value.vList [])] ∧
    ("modules", Value.vList []) ∈
      [("title", Value.vNull), ("modules", Value.vList [])] := by
  refine ⟨(clean_update_data_spec _).1, ?_⟩
  exact (clean_update_data_spec
      [("title", Value.vNull), ("modules", Value.vList [])]).2
    ("modules", Value.vList []) (by decide)
